import Mathlib

/-!
# Verification of the input dispatch core of a tiling Wayland compositor

Shallow embedding of `src/input/mod.rs`: the suppressed-key tracker
(`SupressedKeys`), the keyboard filter invoked by
`State::process_input_event` for `InputEvent::Keyboard`, the pointer motion
handlers, the action dispatcher (`State::handle_action`) and the hit test
(`State::surface_under`), together with theorems settling the frozen claims
about this subsystem.

Conventions: machine integers (`u32` keycodes/keysyms, token ids) are `Nat`;
`i32` logical coordinates are `Int`; `f64` positions are `Rat` (no claim
depends on floating-point rounding behaviour); interior mutability
(`RefCell`) becomes explicit state passing; event-loop registration tokens
are abstract `Nat` ids.
-/

namespace Cosmic

/-! ## Basic data model: modifiers, patterns, actions, modal state -/

structure Modifiers where
  ctrl : Bool
  alt : Bool
  logo : Bool
  shift : Bool
deriving DecidableEq

def Modifiers.none : Modifiers := ⟨false, false, false, false⟩

/-- `KeyPattern { modifiers, key }` from the configuration. The `key` field
holds a keysym in configured bindings and a raw keycode in the patterns the
resize-arrow rule builds (`key: handle.raw_code()`), exactly as the source
mixes the two. -/
structure KeyPattern where
  modifiers : Modifiers
  key : Nat
deriving DecidableEq

inductive KeyState
  | Pressed
  | Released
deriving DecidableEq

inductive ResizeDirection
  | Inwards
  | Outwards
deriving DecidableEq

inductive ResizeEdge
  | LEFT
  | BOTTOM
  | TOP
  | RIGHT
deriving DecidableEq

/-- Modelled from the spec: `ResizeEdge::flip_direction` lives in
`shell/grabs` which is not under `src/`; the spec says "compute `edge`
(flipping if `direction == Inwards`)", i.e. swap each edge with its
opposite. No claim depends on the concrete edge value. -/
def ResizeEdge.flip_direction : ResizeEdge → ResizeEdge
  | .LEFT => .RIGHT
  | .RIGHT => .LEFT
  | .TOP => .BOTTOM
  | .BOTTOM => .TOP

inductive Direction
  | Left
  | Down
  | Up
  | Right
deriving DecidableEq

inductive FocusDirection
  | Left
  | Down
  | Up
  | Right
deriving DecidableEq

inductive OrientationKind
  | Horizontal
  | Vertical
deriving DecidableEq

/-- The `Action` enum of intercepted commands (config module). -/
inductive Action
  | Terminate
  | Debug
  | Close
  | Workspace (n : Nat)
  | NextWorkspace
  | PreviousWorkspace
  | LastWorkspace
  | MoveToWorkspace (n : Nat)
  | SendToWorkspace (n : Nat)
  | MoveToNextWorkspace
  | SendToNextWorkspace
  | MoveToPreviousWorkspace
  | SendToPreviousWorkspace
  | MoveToLastWorkspace
  | SendToLastWorkspace
  | NextOutput
  | PreviousOutput
  | MoveToNextOutput
  | SendToNextOutput
  | MoveToPreviousOutput
  | SendToPreviousOutput
  | Focus (d : FocusDirection)
  | Move (d : Direction)
  | SwapWindow
  | Maximize
  | Resizing (d : ResizeDirection)
  | ResizingInternal (d : ResizeDirection) (e : ResizeEdge) (s : KeyState)
  | ToggleOrientation
  | Orientation (o : OrientationKind)
  | ToggleStacking
  | ToggleTiling
  | ToggleWindowFloating
  | Spawn (command : String)
deriving DecidableEq

/-- `Trigger` of the overview mode; the node descriptor is abstracted to an
id. -/
inductive Trigger
  | Pointer (button : Nat)
  | KeyboardMove (modifiers : Modifiers)
  | KeyboardSwap (pattern : KeyPattern) (descriptor : Nat)
deriving DecidableEq

inductive OverviewMode
  | None
  | Started (trigger : Trigger)
deriving DecidableEq

/-- `ResizeMode::Started(KeyPattern, _, ResizeDirection)`; the middle
`Instant` field is never read by the filter and is dropped. -/
inductive ResizeMode
  | None
  | Started (pattern : KeyPattern) (direction : ResizeDirection)
deriving DecidableEq

/-! ## Suppressed-key tracker (`SupressedKeys`, src lines 83-106) -/

/-- `SupressedKeys(RefCell<Vec<(u32, Option<RegistrationToken>)>>)`. -/
structure SupressedKeys where
  keys : List (Nat × Option Nat)
deriving DecidableEq

instance : EmptyCollection SupressedKeys := ⟨⟨[]⟩⟩

/-- `SupressedKeys::add`: push `(raw_code, token)`. -/
def SupressedKeys.add (s : SupressedKeys) (rawCode : Nat) (token : Option Nat) :
    SupressedKeys :=
  ⟨s.keys ++ [(rawCode, token)]⟩

/-- `SupressedKeys::filter`: drain all entries whose raw keycode matches,
keep the remainder, and return the drained timer tokens — `None` when no
drained entry carried a token (note: the entries are removed from the set
even in the `None` case). -/
def SupressedKeys.filterKey (s : SupressedKeys) (rawCode : Nat) :
    SupressedKeys × Option (List Nat) :=
  let removed := s.keys.filter (fun e => e.1 == rawCode)
  let remaining := s.keys.filter (fun e => !(e.1 == rawCode))
  let tokens := removed.filterMap (fun e => e.2)
  (⟨remaining⟩, if tokens.isEmpty then none else some tokens)

/-! ## Keyboard filter (closure inside `process_input_event`, src 256-495) -/

/-- The keyboard event payload the filter closure reads: raw keycode, key
state, current modifier mask, modified keysym and raw keysyms. -/
structure KeyEvent where
  rawCode : Nat
  state : KeyState
  modifiers : Modifiers
  modifiedSym : Nat
  rawSyms : List Nat
deriving DecidableEq

inductive FilterResult
  | Forward
  | Intercept (data : Option (Action × KeyPattern))
deriving DecidableEq

/-- The parts of the compositor state the filter reads and writes: the
shell's modal state and the seat's suppressed-key set. (Workspace/tiling
mutations performed by the overview-swap teardown do not touch any of these
fields and are outside the model.) -/
structure FilterState where
  overview : OverviewMode
  resize : ResizeMode
  supressed : SupressedKeys
deriving DecidableEq

def KEY_Left : Nat := 0xff51
def KEY_Up : Nat := 0xff52
def KEY_Right : Nat := 0xff53
def KEY_Down : Nat := 0xff54
def KEY_h : Nat := 0x68
def KEY_H : Nat := 0x48
def KEY_j : Nat := 0x6a
def KEY_J : Nat := 0x4a
def KEY_k : Nat := 0x6b
def KEY_K : Nat := 0x4b
def KEY_l : Nat := 0x6c
def KEY_L : Nat := 0x4c
def KEY_XF86Switch_VT_1 : Nat := 0x1008fe01
def KEY_XF86Switch_VT_12 : Nat := 0x1008fe0c

/-- Arrow/HJKL keysym to resize edge (src 376-382). -/
def resizeEdgeFor (modifiedSym : Nat) : Option ResizeEdge :=
  if modifiedSym = KEY_Left ∨ modifiedSym = KEY_h ∨ modifiedSym = KEY_H then
    some ResizeEdge.LEFT
  else if modifiedSym = KEY_Down ∨ modifiedSym = KEY_j ∨ modifiedSym = KEY_J then
    some ResizeEdge.BOTTOM
  else if modifiedSym = KEY_Up ∨ modifiedSym = KEY_k ∨ modifiedSym = KEY_K then
    some ResizeEdge.TOP
  else if modifiedSym = KEY_Right ∨ modifiedSym = KEY_l ∨ modifiedSym = KEY_L then
    some ResizeEdge.RIGHT
  else
    none

/-- Rules 1-2: leave move overview mode if any trigger modifier was
released; leave swap overview mode if any pattern modifier is absent or the
pattern key was released (src 264-339). -/
def overviewAfterKey (overview : OverviewMode) (ev : KeyEvent) : OverviewMode :=
  let overview1 :=
    match overview with
    | OverviewMode.Started (Trigger.KeyboardMove am) =>
      if (am.ctrl && !ev.modifiers.ctrl) || (am.alt && !ev.modifiers.alt)
          || (am.logo && !ev.modifiers.logo) || (am.shift && !ev.modifiers.shift) then
        OverviewMode.None
      else
        overview
    | _ => overview
  match overview1 with
  | OverviewMode.Started (Trigger.KeyboardSwap ap _descriptor) =>
    if (ap.modifiers.ctrl && !ev.modifiers.ctrl) || (ap.modifiers.alt && !ev.modifiers.alt)
        || (ap.modifiers.logo && !ev.modifiers.logo)
        || (ap.modifiers.shift && !ev.modifiers.shift)
        || (ev.rawSyms.contains ap.key && ev.state == KeyState.Released) then
      OverviewMode.None
    else
      overview1
  | _ => overview1

/-- Rule 3: leave or update resize mode, if modifiers changed or the
initial key was released (src 341-370). -/
def resizeAfterKey (bindings : List (KeyPattern × Action)) (resize : ResizeMode)
    (ev : KeyEvent) : ResizeMode :=
  match resize with
  | ResizeMode.Started ap _dir =>
    if ev.state = KeyState.Released ∧ ev.rawSyms.contains ap.key then
      ResizeMode.None
    else if ap.modifiers ≠ ev.modifiers then
      let newPattern : KeyPattern := ⟨ev.modifiers, ap.key⟩
      match bindings.findSome? (fun ba =>
          match ba.2 with
          | Action.Resizing direction =>
            if ba.1 = newPattern then some (newPattern, direction) else none
          | _ => none) with
      | some (p, d) => ResizeMode.Started p d
      | none => ResizeMode.None
    else
      resize
  | ResizeMode.None => resize

/-- Rules 6-8 of the filter: VT switch, global shortcuts, default forward
(src 456-494). -/
def keyFilterRest (bindings : List (KeyPattern × Action)) (shortcutsInhibited : Bool)
    (overview : OverviewMode) (resize : ResizeMode) (supressed : SupressedKeys)
    (ev : KeyEvent) : FilterState × FilterResult :=
  -- Handle VT switches
  if ev.state = KeyState.Pressed ∧ KEY_XF86Switch_VT_1 ≤ ev.modifiedSym
      ∧ ev.modifiedSym ≤ KEY_XF86Switch_VT_12 then
    (⟨overview, resize, supressed.add ev.rawCode none⟩, FilterResult.Intercept none)
  else
    -- handle the rest of the global shortcuts
    match (if shortcutsInhibited then none
           else bindings.find? (fun ba =>
             ev.state == KeyState.Pressed && ba.1.modifiers == ev.modifiers
               && ev.rawSyms.contains ba.1.key)) with
    | some ba =>
      (⟨overview, resize, supressed.add ev.rawCode none⟩,
        FilterResult.Intercept (some (ba.2, ba.1)))
    | none =>
      (⟨overview, resize, supressed⟩, FilterResult.Forward)

/-- Rules 5-8 of the filter, starting with "skip released events for
initially surpressed keys" (src 425-433). The drain happens inside
`SupressedKeys::filter` unconditionally; the returned tokens gate only the
cancellation and the `Intercept(None)` return. -/
def keyFilterTail (bindings : List (KeyPattern × Action)) (shortcutsInhibited : Bool)
    (overview : OverviewMode) (resize : ResizeMode) (supressed : SupressedKeys)
    (ev : KeyEvent) : FilterState × FilterResult :=
  if ev.state = KeyState.Released then
    match (SupressedKeys.filterKey supressed ev.rawCode).2 with
    | some _tokens =>
      (⟨overview, resize, (SupressedKeys.filterKey supressed ev.rawCode).1⟩,
        FilterResult.Intercept none)
    | none =>
      keyFilterRest bindings shortcutsInhibited overview resize
        (SupressedKeys.filterKey supressed ev.rawCode).1 ev
  else
    keyFilterRest bindings shortcutsInhibited overview resize supressed ev

/-- Rule 4, the resize-arrow special case (src 372-423), falling through to
`keyFilterTail`. The `overview` and `resize` arguments are the modal state
after rules 1-3. `needsKeyRepetition` and `freshToken` model the
repeat-timer registration; the token recorded in the suppression is
`freshToken` when repetition is requested. -/
def keyFilterMain (bindings : List (KeyPattern × Action)) (shortcutsInhibited : Bool)
    (needsKeyRepetition : Bool) (freshToken : Nat)
    (overview : OverviewMode) (resize : ResizeMode) (supressed : SupressedKeys)
    (ev : KeyEvent) : FilterState × FilterResult :=
  match resize with
  | ResizeMode.Started _rp direction =>
    match resizeEdgeFor ev.modifiedSym with
    | some edge0 =>
      if ev.state = KeyState.Released then
        (⟨overview, resize, (SupressedKeys.filterKey supressed ev.rawCode).1⟩,
          FilterResult.Intercept (some
            (Action.ResizingInternal direction
              (if direction = ResizeDirection.Inwards then edge0.flip_direction else edge0)
              ev.state,
             ⟨ev.modifiers, ev.rawCode⟩)))
      else
        (⟨overview, resize,
            supressed.add ev.rawCode (if needsKeyRepetition then some freshToken else none)⟩,
          FilterResult.Intercept (some
            (Action.ResizingInternal direction
              (if direction = ResizeDirection.Inwards then edge0.flip_direction else edge0)
              ev.state,
             ⟨ev.modifiers, ev.rawCode⟩)))
    | none => keyFilterTail bindings shortcutsInhibited overview resize supressed ev
  | ResizeMode.None => keyFilterTail bindings shortcutsInhibited overview resize supressed ev

/-- The full keyboard filter closure (src 256-495): modal teardown
(rules 1-3), then rule 4 and the tail rules. -/
def keyFilter (bindings : List (KeyPattern × Action)) (shortcutsInhibited : Bool)
    (needsKeyRepetition : Bool) (freshToken : Nat)
    (st : FilterState) (ev : KeyEvent) : FilterState × FilterResult :=
  keyFilterMain bindings shortcutsInhibited needsKeyRepetition freshToken
    (overviewAfterKey st.overview ev) (resizeAfterKey bindings st.resize ev)
    st.supressed ev

/-! ## Action dispatcher (`State::handle_action`, src 974-1547)

The dispatcher's interactions with `Shell` are modelled through an
environment of oracles (`activate`, `move_current_window`) and an effect
list recording, in order, the shell calls made and the recursive
`handle_action` invocations. Only the workspace-navigation and
window-move actions relevant to the claims are modelled; every other
action's branch touches none of the modelled state and is omitted. -/

inductive ActivateResult
  | ok
  | err
deriving DecidableEq

structure DispatchEnv where
  /-- `shell.workspaces.active_num(&current_output).1` -/
  activeNum : Nat
  /-- `shell.workspaces.len(&current_output)` -/
  wsLen : Nat
  /-- `shell.activate(&current_output, idx)` success or failure -/
  activate : Nat → ActivateResult
  /-- `Shell::move_current_window(.., (&current_output, Some idx), follow, ..)`
  success (`true`) or failure (`false`) -/
  moveWindow : Nat → Bool → Bool

inductive DispatchEffect
  | activated (idx : Nat)
  | movedWindow (idx : Nat) (follow : Bool)
  | recursed (a : Action)
deriving DecidableEq

/-- `Action::Workspace(key_num)` index mapping (src 1014-1017). -/
def workspaceKeyIndex (keyNum : Nat) : Nat :=
  match keyNum with
  | 0 => 9
  | x => x - 1

/-- The `MoveToNextWorkspace`/`SendToNextWorkspace` branch (src 1093-1125). -/
def moveNextWorkspaceBranch (env : DispatchEnv) (x : Action) : List DispatchEffect :=
  let workspace := env.activeNum + 1
  let follow := x == Action.MoveToNextWorkspace
  DispatchEffect.movedWindow workspace follow ::
    (if env.moveWindow workspace follow = false then
      [DispatchEffect.recursed
        (if x = Action.MoveToNextWorkspace then Action.MoveToNextOutput
         else Action.SendToNextOutput)]
    else [])

/-- The `MoveToPreviousWorkspace`/`SendToPreviousWorkspace` branch
(src 1126-1159). Note: the fallback discriminates on
`Action::MoveToNextWorkspace` inside this `Previous…` handler, exactly as
the source does. -/
def movePreviousWorkspaceBranch (env : DispatchEnv) (x : Action) : List DispatchEffect :=
  let workspace := env.activeNum - 1
  let follow := x == Action.MoveToPreviousWorkspace
  DispatchEffect.movedWindow workspace follow ::
    (if env.moveWindow workspace follow = false then
      [DispatchEffect.recursed
        (if x = Action.MoveToNextWorkspace then Action.MoveToPreviousOutput
         else Action.SendToPreviousOutput)]
    else [])

/-- The workspace-navigation fragment of `State::handle_action`. Actions
outside this fragment perform no modelled effect. -/
def handleAction (env : DispatchEnv) : Action → List DispatchEffect
  | Action.Workspace keyNum =>
    [DispatchEffect.activated (workspaceKeyIndex keyNum)]
  | Action.NextWorkspace =>
    let workspace := env.activeNum + 1
    DispatchEffect.activated workspace ::
      (if env.activate workspace = ActivateResult.err then
        [DispatchEffect.recursed Action.NextOutput]
      else [])
  | Action.PreviousWorkspace =>
    let workspace := env.activeNum - 1
    DispatchEffect.activated workspace ::
      (if env.activate workspace = ActivateResult.err then
        [DispatchEffect.recursed Action.PreviousOutput]
      else [])
  | Action.LastWorkspace =>
    [DispatchEffect.activated (env.wsLen - 1)]
  | Action.MoveToNextWorkspace => moveNextWorkspaceBranch env Action.MoveToNextWorkspace
  | Action.SendToNextWorkspace => moveNextWorkspaceBranch env Action.SendToNextWorkspace
  | Action.MoveToPreviousWorkspace =>
    movePreviousWorkspaceBranch env Action.MoveToPreviousWorkspace
  | Action.SendToPreviousWorkspace =>
    movePreviousWorkspaceBranch env Action.SendToPreviousWorkspace
  | _ => []

/-! ## Geometry -/

structure PointI where
  x : Int
  y : Int
deriving DecidableEq

structure PointQ where
  x : Rat
  y : Rat
deriving DecidableEq

def PointI.add (a b : PointI) : PointI := ⟨a.x + b.x, a.y + b.y⟩

def PointI.toQ (p : PointI) : PointQ := ⟨(p.x : Rat), (p.y : Rat)⟩

def PointQ.addQ (a b : PointQ) : PointQ := ⟨a.x + b.x, a.y + b.y⟩

def PointQ.subQ (a b : PointQ) : PointQ := ⟨a.x - b.x, a.y - b.y⟩

/-- `relative_pos - layer_loc.to_f64()` and friends. -/
def PointQ.subI (a : PointQ) (b : PointI) : PointQ := ⟨a.x - (b.x : Rat), a.y - (b.y : Rat)⟩

/-- `to_i32_round` (`f64::round` is half-away-from-zero; the offsets this is
applied to are integer-valued in the source, so the rounding mode is
immaterial). -/
def PointQ.roundToI (p : PointQ) : PointI := ⟨round p.x, round p.y⟩

structure RectI where
  loc : PointI
  size : PointI
deriving DecidableEq

/-- `Rectangle::<f64>::contains` after `geometry().to_f64()`: half-open on
the right/bottom. -/
def RectI.containsQ (r : RectI) (p : PointQ) : Bool :=
  decide ((r.loc.x : Rat) ≤ p.x) && decide ((r.loc.y : Rat) ≤ p.y)
    && decide (p.x < ((r.loc.x + r.size.x : Int) : Rat))
    && decide (p.y < ((r.loc.y + r.size.y : Int) : Rat))

/-! ## Pointer motion handlers (src 503-656) -/

structure OutputM where
  id : Nat
  geometry : RectI
deriving DecidableEq

/-- Seat state the motion handlers read and write: the active output
(`ActiveOutput` user data) and the pointer's `current_location`. -/
structure SeatPointer where
  activeOutput : OutputM
  location : PointQ
deriving DecidableEq

/-- Observable events emitted while handling one pointer-motion event, in
emission order. -/
inductive TraceEvent
  | cursorLeave (session : Nat)
  | cursorEnter (session : Nat)
  | setActiveOutput (output : Nat)
  | cursorInfo (session : Nat)
  | relativeMotion
  | motion
deriving DecidableEq

/-- Environment of a motion event: the shell's output list,
`sessions_for_output` (keyed by output id) and whether
`seat.cursor_geometry` currently yields a cursor. -/
structure MotionWorld where
  outputs : List OutputM
  sessionsFor : Nat → List Nat
  cursorGeometryVisible : Bool

/-- `outputs().find(|o| o.geometry().to_f64().contains(position))` with the
fallback to the seat's current output (src 512-518). -/
def outputForPosition (outputs : List OutputM) (currentOutput : OutputM)
    (position : PointQ) : OutputM :=
  ((outputs.find? (fun o => o.geometry.containsQ position)).getD currentOutput)

/-- Clamp of the position to the chosen output's geometry (src 532-537):
`loc.max(position).min(loc + size)` per axis — inclusive on both ends. -/
def clampToGeometry (g : RectI) (p : PointQ) : PointQ :=
  ⟨min (max ((g.loc.x : Rat)) p.x) (((g.loc.x + g.size.x : Int) : Rat)),
   min (max ((g.loc.y : Rat)) p.y) (((g.loc.y + g.size.y : Int) : Rat))⟩

/-- `position += event.delta()` (src 509-510). -/
def newPosition (seat : SeatPointer) (delta : PointQ) : PointQ :=
  seat.location.addQ delta

/-- The output that will own the pointer after the motion. -/
def motionOutput (w : MotionWorld) (seat : SeatPointer) (delta : PointQ) : OutputM :=
  outputForPosition w.outputs seat.activeOutput (newPosition seat delta)

/-- The output-crossing block (src 519-529): `cursor_leave` to every
session of the old output, `cursor_enter` to every session of the new one,
then `seat.set_active_output(&output)`; nothing when the output did not
change. -/
def motionCrossTrace (w : MotionWorld) (seat : SeatPointer) (delta : PointQ) :
    List TraceEvent :=
  if motionOutput w seat delta ≠ seat.activeOutput then
    (w.sessionsFor seat.activeOutput.id).map TraceEvent.cursorLeave
      ++ (w.sessionsFor (motionOutput w seat delta).id).map TraceEvent.cursorEnter
      ++ [TraceEvent.setActiveOutput (motionOutput w seat delta).id]
  else []

/-- The screencopy cursor-info broadcast (src 553-564). -/
def motionInfoTrace (w : MotionWorld) (seat : SeatPointer) (delta : PointQ) :
    List TraceEvent :=
  if w.cursorGeometryVisible then
    (w.sessionsFor (motionOutput w seat delta).id).map TraceEvent.cursorInfo
  else []

/-- `InputEvent::PointerMotion` handling (src 503-598): position update,
output crossing with screencopy cursor enter/leave and active-output
update, clamping, cursor info broadcast, then `relative_motion` followed by
`motion`. (Focus resolution via `surface_under` reads but does not write
any state modelled here.) Returns the new seat state and the emission
trace. -/
def processPointerMotion (w : MotionWorld) (seat : SeatPointer) (delta : PointQ) :
    SeatPointer × List TraceEvent :=
  (⟨motionOutput w seat delta,
      clampToGeometry (motionOutput w seat delta).geometry (newPosition seat delta)⟩,
    motionCrossTrace w seat delta ++ motionInfoTrace w seat delta
      ++ [TraceEvent.relativeMotion, TraceEvent.motion])

/-- `InputEvent::PointerMotionAbsolute` handling (src 600-656): position is
`output.geometry().loc + position_transformed(event, size)`; the active
output is read but never written; only `motion` is emitted after the cursor
info broadcast. -/
def processPointerMotionAbsolute (w : MotionWorld) (seat : SeatPointer)
    (transformedPos : PointQ) : SeatPointer × List TraceEvent :=
  let geometry := seat.activeOutput.geometry
  let position := geometry.loc.toQ.addQ transformedPos
  let infoTrace :=
    if w.cursorGeometryVisible then
      (w.sessionsFor seat.activeOutput.id).map TraceEvent.cursorInfo
    else []
  (⟨seat.activeOutput, position⟩, infoTrace ++ [TraceEvent.motion])

/-! ## Surface-under hit test (`State::surface_under`, src 1549-1626) and
the keyboard-refocus hit test on pointer press (src 679-775) -/

/-- A mapped `wlr-layer-shell` layer surface: its geometry location in the
layer map, whether `can_receive_keyboard_focus()` holds, and its
`surface_under(p, WindowSurfaceType::ALL).is_some()` predicate at
layer-local positions. -/
structure LayerSurfaceM where
  id : Nat
  loc : PointI
  canReceiveKeyboardFocus : Bool
  surfaceUnderAt : PointQ → Bool

inductive WlrLayer
  | Background
  | Bottom
  | Top
  | Overlay
deriving DecidableEq

/-- `layer_map_for_output(output)`: `layer_under` per layer and position,
plus the `non_exclusive_zone().loc` used for maximized windows. -/
structure LayerMapM where
  layerUnder : WlrLayer → PointQ → Option LayerSurfaceM
  nonExclusiveZoneLoc : PointI

/-- An X11 override-redirect window: `geometry().loc` and
`is_in_input_region` at window-local positions. -/
structure X11SurfaceM where
  id : Nat
  loc : PointI
  inInputRegion : PointQ → Bool

inductive PointerFocusTargetM
  | layerSurface (id : Nat)
  | window (id : Nat)
  | x11OverrideRedirect (id : Nat)
  | element (id : Nat)
deriving DecidableEq

/-- The hit-test view of the active workspace: `get_fullscreen(output)`,
`get_maximized(output)` (window ids) and `element_under(pos, overview)`
(the overview mode is folded into the function). -/
structure WorkspaceHit where
  fullscreen : Option Nat
  maximized : Option Nat
  elementUnder : PointQ → Option (PointerFocusTargetM × PointI)

/-- The repeated pattern `layer.surface_under(relative - layer_loc, ALL)`
guarding a layer hit in `surface_under`, with the returned target and
global offset `output_geo.loc + layer_loc`. -/
def layerSurfaceHit (relative : PointQ) (outputGeoLoc : PointI) (layer : LayerSurfaceM) :
    Option (PointerFocusTargetM × PointI) :=
  if layer.surfaceUnderAt (relative.subI layer.loc) then
    some (PointerFocusTargetM.layerSurface layer.id, outputGeoLoc.add layer.loc)
  else
    none

/-- `override_redirect_windows.iter().find(|or| or.is_in_input_region(&(global_pos - or.geometry().loc)))`. -/
def orWindowUnder (global : PointQ) (ors : List X11SurfaceM) : Option X11SurfaceM :=
  ors.find? (fun o => o.inInputRegion (global.subI o.loc))

/-- `State::surface_under` (src 1549-1626), transliterated. -/
def surface_under (global relative : PointQ) (outputGeoLoc : PointI)
    (layers : LayerMapM) (overrideRedirectWindows : List X11SurfaceM)
    (ws : WorkspaceHit) : Option (PointerFocusTargetM × PointI) :=
  match ws.fullscreen with
  | some window =>
    let layerHit :=
      match layers.layerUnder WlrLayer.Overlay relative with
      | some layer => layerSurfaceHit relative outputGeoLoc layer
      | none => none
    match layerHit with
    | some hit => some hit
    | none =>
      match orWindowUnder global overrideRedirectWindows with
      | some o => some (PointerFocusTargetM.x11OverrideRedirect o.id, o.loc)
      | none => some (PointerFocusTargetM.window window, outputGeoLoc)
  | none =>
    let layerHit :=
      match (layers.layerUnder WlrLayer.Overlay relative).orElse
          (fun _ => layers.layerUnder WlrLayer.Top relative) with
      | some layer => layerSurfaceHit relative outputGeoLoc layer
      | none => none
    match layerHit with
    | some hit => some hit
    | none =>
      match orWindowUnder global overrideRedirectWindows with
      | some o => some (PointerFocusTargetM.x11OverrideRedirect o.id, o.loc)
      | none =>
        match ws.maximized with
        | some surface =>
          some (PointerFocusTargetM.window surface,
            outputGeoLoc.add layers.nonExclusiveZoneLoc)
        | none =>
          match ws.elementUnder relative with
          | some (target, loc) =>
            some (target, loc.add (global.subQ relative).roundToI)
          | none =>
            match (layers.layerUnder WlrLayer.Bottom relative).orElse
                (fun _ => layers.layerUnder WlrLayer.Background relative) with
            | some layer => layerSurfaceHit relative outputGeoLoc layer
            | none => none

/-- The layer check of the keyboard-refocus path:
`layer.can_receive_keyboard_focus() && layer.surface_under(relative - layer_loc, ALL).is_some()`. -/
def refocusLayerCheck (relative : PointQ) (layer : LayerSurfaceM) : Bool :=
  layer.canReceiveKeyboardFocus && layer.surfaceUnderAt (relative.subI layer.loc)

/-- The keyboard-refocus hit test run on `PointerButton` `Pressed` when
neither pointer nor keyboard is grabbed (src 679-768), computing the value
of `under`. `pos` is the pointer's current location, `relative` its image
under `map_global_to_space`. Note the `Bottom`/`Background` lookups are
performed at `pos`, not `relative`, exactly as in the source. -/
def buttonRefocusTarget (pos relative : PointQ) (layers : LayerMapM)
    (ws : WorkspaceHit) : Option PointerFocusTargetM :=
  match ws.fullscreen with
  | some window =>
    match layers.layerUnder WlrLayer.Overlay relative with
    | some layer =>
      if refocusLayerCheck relative layer then
        some (PointerFocusTargetM.layerSurface layer.id)
      else
        none
    | none => some (PointerFocusTargetM.window window)
  | none =>
    match (layers.layerUnder WlrLayer.Overlay relative).orElse
        (fun _ => layers.layerUnder WlrLayer.Top relative) with
    | some layer =>
      -- `done = true`: a layer was under the position; `under` is set only
      -- if the check passes, and no later candidate is considered.
      if refocusLayerCheck relative layer then
        some (PointerFocusTargetM.layerSurface layer.id)
      else
        none
    | none =>
      match ws.maximized with
      | some surface => some (PointerFocusTargetM.window surface)
      | none =>
        match ws.elementUnder relative with
        | some (target, _) => some target
        | none =>
          match (layers.layerUnder WlrLayer.Bottom pos).orElse
              (fun _ => layers.layerUnder WlrLayer.Background pos) with
          | some layer =>
            if refocusLayerCheck relative layer then
              some (PointerFocusTargetM.layerSurface layer.id)
            else
              none
          | none => none

/-! ## Trace machinery for the keyboard filter (claims about reachable
suppressed-key states) -/

/-- The per-event inputs of one filter invocation. -/
structure FilterInput where
  bindings : List (KeyPattern × Action)
  shortcutsInhibited : Bool
  needsKeyRepetition : Bool
  freshToken : Nat
  event : KeyEvent

def filterStep (st : FilterState) (i : FilterInput) : FilterState :=
  (keyFilter i.bindings i.shortcutsInhibited i.needsKeyRepetition i.freshToken st i.event).1

def runFilter (st : FilterState) : List FilterInput → FilterState
  | [] => st
  | i :: rest => runFilter (filterStep st i) rest

/-- Key-phase tracking: after the event, the event's raw keycode is down
iff the event was a press; other keycodes keep their phase. -/
def updateDown (d : Nat → Bool) (ev : KeyEvent) : Nat → Bool :=
  fun c => if c = ev.rawCode then ev.state == KeyState.Pressed else d c

def allKeysUp : Nat → Bool := fun _ => false

/-- A physically well-formed event sequence: presses only of keys that are
up, releases only of keys that are down (per raw keycode). -/
def alternatingFrom (d : Nat → Bool) : List FilterInput → Bool
  | [] => true
  | i :: rest =>
    (match i.event.state with
     | KeyState.Pressed => !(d i.event.rawCode)
     | KeyState.Released => d i.event.rawCode) && alternatingFrom (updateDown d i.event) rest

/-- No two entries of the suppressed-key set carry the same raw keycode. -/
def SuppDistinct (s : SupressedKeys) : Prop := (s.keys.map Prod.fst).Nodup

instance (s : SupressedKeys) : Decidable (SuppDistinct s) :=
  inferInstanceAs (Decidable ((s.keys.map Prod.fst).Nodup))

/-- Invariant tying the suppressed-key set to the key phases: entries have
pairwise-distinct keycodes and every entry's keycode is down. -/
def SuppInv (d : Nat → Bool) (st : FilterState) : Prop :=
  SuppDistinct st.supressed ∧ ∀ e ∈ st.supressed.keys, d e.1 = true

/-! ## Concrete inputs for counterexamples and witnesses -/

/-- A suppressed key recorded without a timer token (as VT-switch and
global-shortcut interceptions record them), with no modal state active. -/
def c1State : FilterState := ⟨OverviewMode.None, ResizeMode.None, ⟨[(30, none)]⟩⟩

/-- The same state but with the suppression carrying a timer token. -/
def c1StateToken : FilterState := ⟨OverviewMode.None, ResizeMode.None, ⟨[(30, some 5)]⟩⟩

/-- The key-up for raw keycode 30. -/
def c1Event : KeyEvent := ⟨30, KeyState.Released, Modifiers.none, 30, [30]⟩

/-- A VT-switch key press (modified sym `XF86Switch_VT_1`). -/
def vtPressEvent : KeyEvent := ⟨30, KeyState.Pressed, Modifiers.none, KEY_XF86Switch_VT_1, [30]⟩

def vtPressInput : FilterInput := ⟨[], false, false, 0, vtPressEvent⟩

def emptyFilterState : FilterState := ⟨OverviewMode.None, ResizeMode.None, ⟨[]⟩⟩

/-- Dispatcher oracle in which every window move fails. -/
def envC2 : DispatchEnv := ⟨3, 4, fun _ => ActivateResult.ok, fun _ _ => false⟩

/-- Dispatcher oracle in which everything succeeds. -/
def envW : DispatchEnv := ⟨2, 3, fun _ => ActivateResult.ok, fun _ _ => true⟩

/-! ## Event-ordering predicates for motion traces -/

def isLeave : TraceEvent → Bool
  | TraceEvent.cursorLeave _ => true
  | _ => false

def isEnter : TraceEvent → Bool
  | TraceEvent.cursorEnter _ => true
  | _ => false

def isSetActiveOutput : TraceEvent → Bool
  | TraceEvent.setActiveOutput _ => true
  | _ => false

/-- Every event satisfying `p` is emitted strictly before every event
satisfying `q`. -/
def emittedBefore (p q : TraceEvent → Bool) (l : List TraceEvent) : Prop :=
  ∀ i j : Fin l.length, p (l.get i) = true → q (l.get j) = true → (i : Nat) < (j : Nat)

/-! ## Concrete two-output world (spec scenario S3) -/

def outA : OutputM := ⟨1, ⟨⟨0, 0⟩, ⟨1920, 1080⟩⟩⟩

def outB : OutputM := ⟨2, ⟨⟨1920, 0⟩, ⟨1920, 1080⟩⟩⟩

def worldAB : MotionWorld := ⟨[outA, outB], fun id => if id = 1 then [10] else [20], false⟩

def seatA : SeatPointer := ⟨outA, ⟨1900, 500⟩⟩

def deltaAB : PointQ := ⟨40, 0⟩

/-! ## The hit test described by the refinement claim -/

/-- The keyboard-refocus hit test as the claim words it: `surface_under`'s
layer precedence (fullscreen: overlay layer then fullscreen window;
otherwise overlay/top layer, then maximized window, then workspace
element, then bottom/background layer) restricted to keyboard-focus-capable
targets, with every layer lookup performed at the output-relative
position. -/
def claimRefocusSpec (relative : PointQ) (layers : LayerMapM) (ws : WorkspaceHit) :
    Option PointerFocusTargetM :=
  let layerTarget : Option LayerSurfaceM → Option PointerFocusTargetM := fun l =>
    l.bind (fun layer =>
      if refocusLayerCheck relative layer then
        some (PointerFocusTargetM.layerSurface layer.id)
      else none)
  match ws.fullscreen with
  | some window =>
    match layerTarget (layers.layerUnder WlrLayer.Overlay relative) with
    | some t => some t
    | none => some (PointerFocusTargetM.window window)
  | none =>
    match layerTarget ((layers.layerUnder WlrLayer.Overlay relative).orElse
        (fun _ => layers.layerUnder WlrLayer.Top relative)) with
    | some t => some t
    | none =>
      match ws.maximized with
      | some surface => some (PointerFocusTargetM.window surface)
      | none =>
        match ws.elementUnder relative with
        | some (target, _) => some target
        | none =>
          layerTarget ((layers.layerUnder WlrLayer.Bottom relative).orElse
            (fun _ => layers.layerUnder WlrLayer.Background relative))

/-- A top layer with a surface everywhere that cannot take keyboard
focus. -/
def ceTopLayer : LayerSurfaceM := ⟨1, ⟨0, 0⟩, false, fun _ => true⟩

def ceLayers : LayerMapM :=
  ⟨fun l _ => if l = WlrLayer.Top then some ceTopLayer else none, ⟨0, 0⟩⟩

/-- A workspace with a tiled element under every position. -/
def ceWs : WorkspaceHit := ⟨none, none, fun _ => some (PointerFocusTargetM.element 7, ⟨0, 0⟩)⟩

def cePos : PointQ := ⟨100, 100⟩

/-- An empty scene: no layers, no override-redirect windows, no windows. -/
def emptyLayers : LayerMapM := ⟨fun _ _ => none, ⟨0, 0⟩⟩

def emptyWsHit : WorkspaceHit := ⟨none, none, fun _ => none⟩

/-- A fullscreen scene for the hit-test totality witness. -/
def fsWsHit : WorkspaceHit := ⟨some 42, none, fun _ => none⟩

def originQ : PointQ := ⟨0, 0⟩

def originI : PointI := ⟨0, 0⟩

/-! # Theorems -/

/-! ## C9: `Workspace(n)` index mapping -/

/-- C9: Dispatching `Action::Workspace(0)` activates workspace index 9 on
the seat's active output, and `Action::Workspace(n)` for every `n ∈ [1, 9]`
activates workspace index `n - 1`. -/
theorem workspace_action_index (env : DispatchEnv) :
    handleAction env (Action.Workspace 0) = [DispatchEffect.activated 9] ∧
    ∀ n : Nat, 1 ≤ n → n ≤ 9 →
      handleAction env (Action.Workspace n) = [DispatchEffect.activated (n - 1)] := by
  refine ⟨rfl, ?_⟩
  intro n h1 _h9
  cases n with
  | zero => exact absurd h1 (by decide)
  | succ m => rfl

/-- Witness for C9 at a concrete workspace number. -/
theorem workspace_action_index_witness :
    handleAction envW (Action.Workspace 5) = [DispatchEffect.activated 4] :=
  (workspace_action_index envW).2 5 (by decide) (by decide)

/-! ## C8: NextWorkspace / PreviousWorkspace fallback -/

/-- C8: `NextWorkspace` activates the saturating-incremented active
workspace index and recursively invokes `NextOutput` iff that activation
fails; symmetrically `PreviousWorkspace` with the saturating decrement and
`PreviousOutput`. -/
theorem next_previous_workspace_fallback (env : DispatchEnv) :
    (DispatchEffect.activated (env.activeNum + 1) ∈
        handleAction env Action.NextWorkspace) ∧
    (DispatchEffect.recursed Action.NextOutput ∈ handleAction env Action.NextWorkspace
      ↔ env.activate (env.activeNum + 1) = ActivateResult.err) ∧
    (DispatchEffect.activated (env.activeNum - 1) ∈
        handleAction env Action.PreviousWorkspace) ∧
    (DispatchEffect.recursed Action.PreviousOutput ∈ handleAction env Action.PreviousWorkspace
      ↔ env.activate (env.activeNum - 1) = ActivateResult.err) := by
  refine ⟨?_, ?_, ?_, ?_⟩
  · simp [handleAction]
  · cases h : env.activate (env.activeNum + 1) <;> simp [handleAction, h]
  · simp [handleAction]
  · cases h : env.activate (env.activeNum - 1) <;> simp [handleAction, h]

/-! ## C2: MoveToPreviousWorkspace / SendToPreviousWorkspace -/

/-- C2 fails on the code: when the window move fails, a
`MoveToPreviousWorkspace` action falls back to `SendToPreviousOutput`, not
to `MoveToPreviousOutput` as claimed, because the fallback condition
discriminates on `MoveToNextWorkspace` inside the `Previous…` handler. -/
theorem move_previous_fallback_counterexample :
    DispatchEffect.recursed Action.SendToPreviousOutput ∈
        handleAction envC2 Action.MoveToPreviousWorkspace ∧
    DispatchEffect.recursed Action.MoveToPreviousOutput ∉
        handleAction envC2 Action.MoveToPreviousWorkspace := by
  decide

/-- C2 amended: `MoveToPreviousWorkspace` and `SendToPreviousWorkspace`
share the selection logic — both target the saturating-decremented active
workspace index — and differ only in the follow-focus flag; when the window
move fails, *both* fall back to `SendToPreviousOutput` (the fallback test
`matches!(x, MoveToNextWorkspace)` never holds in this handler). -/
theorem move_send_previous_workspace_selection (env : DispatchEnv) (x : Action)
    (h : x = Action.MoveToPreviousWorkspace ∨ x = Action.SendToPreviousWorkspace) :
    handleAction env x =
      DispatchEffect.movedWindow (env.activeNum - 1) (x == Action.MoveToPreviousWorkspace) ::
        (if env.moveWindow (env.activeNum - 1) (x == Action.MoveToPreviousWorkspace) = false
         then [DispatchEffect.recursed Action.SendToPreviousOutput]
         else []) := by
  rcases h with h | h <;> subst h <;> rfl

/-- Witness for C2's amended claim at a failing move. -/
theorem move_send_previous_workspace_selection_witness :
    handleAction envC2 Action.MoveToPreviousWorkspace =
      [DispatchEffect.movedWindow 2 true,
        DispatchEffect.recursed Action.SendToPreviousOutput] := by
  have h := move_send_previous_workspace_selection envC2 Action.MoveToPreviousWorkspace
    (Or.inl rfl)
  simpa [envC2] using h

/-! ## C1: released suppressed keys -/

/-- C1 identifies a code bug: on a `Released` event whose raw keycode has
entries in the suppressed-key set, the filter always drains those entries,
but it returns `Intercept(None)` only when at least one drained entry
carried a timer token (`SupressedKeys::filter` returns `None` for an empty
token list). When every matching suppression was recorded without a token —
precisely the VT-switch and global-shortcut case the claim singles out —
the filter falls through and returns `Forward`, so the key-up does reach
the client. -/
theorem released_suppressed_key_forwarded :
    keyFilter [] false false 0 c1State c1Event =
      (emptyFilterState, FilterResult.Forward) ∧
    keyFilter [] false false 0 c1StateToken c1Event =
      (emptyFilterState, FilterResult.Intercept none) := by
  decide

/-! ## C4: distinctness of suppressed keycodes -/

/-- Rules 6-8 never fire on a released event: the suppressed set is left
untouched by `keyFilterRest`. -/
theorem keyFilterRest_supressed_released (bindings : List (KeyPattern × Action))
    (inh : Bool) (ov : OverviewMode) (rz : ResizeMode) (sup : SupressedKeys)
    (ev : KeyEvent) (h : ev.state = KeyState.Released) :
    (keyFilterRest bindings inh ov rz sup ev).1.supressed = sup := by
  unfold keyFilterRest
  rw [if_neg (by rw [h]; rintro ⟨hc, -⟩; exact KeyState.noConfusion hc)]
  split
  · next ba heq =>
    exfalso
    cases hi : inh
    · rw [hi] at heq
      simp only [Bool.false_eq_true, if_false] at heq
      have hp := List.find?_some heq
      rw [h] at hp
      simp at hp
    · rw [hi] at heq
      simp at heq
  · rfl

/-- Rules 6-8 leave the suppressed set unchanged or append one token-less
entry for the event's keycode. -/
theorem keyFilterRest_supressed_cases (bindings : List (KeyPattern × Action))
    (inh : Bool) (ov : OverviewMode) (rz : ResizeMode) (sup : SupressedKeys)
    (ev : KeyEvent) :
    (keyFilterRest bindings inh ov rz sup ev).1.supressed = sup ∨
    (keyFilterRest bindings inh ov rz sup ev).1.supressed = sup.add ev.rawCode none := by
  unfold keyFilterRest
  split
  · right; rfl
  · split
    · right; rfl
    · left; rfl

/-- On a released event, rules 5-8 leave exactly the entries whose keycode
differs from the event's (the drain happens whether or not the filter
intercepts). -/
theorem keyFilterTail_supressed_released (bindings : List (KeyPattern × Action))
    (inh : Bool) (ov : OverviewMode) (rz : ResizeMode) (sup : SupressedKeys)
    (ev : KeyEvent) (h : ev.state = KeyState.Released) :
    (keyFilterTail bindings inh ov rz sup ev).1.supressed =
      ⟨sup.keys.filter (fun e => !(e.1 == ev.rawCode))⟩ := by
  unfold keyFilterTail
  rw [if_pos h]
  split
  · rfl
  · exact keyFilterRest_supressed_released bindings inh ov rz _ ev h

/-- On a pressed event, rules 5-8 either leave the set unchanged or append
one token-less entry for the event's keycode. -/
theorem keyFilterTail_supressed_pressed (bindings : List (KeyPattern × Action))
    (inh : Bool) (ov : OverviewMode) (rz : ResizeMode) (sup : SupressedKeys)
    (ev : KeyEvent) (h : ev.state = KeyState.Pressed) :
    (keyFilterTail bindings inh ov rz sup ev).1.supressed = sup ∨
    (keyFilterTail bindings inh ov rz sup ev).1.supressed = sup.add ev.rawCode none := by
  unfold keyFilterTail
  rw [if_neg (by rw [h]; exact fun hc => KeyState.noConfusion hc)]
  exact keyFilterRest_supressed_cases bindings inh ov rz sup ev

/-- The full filter on a released event: all entries for the event's raw
keycode are drained, whichever rule handles it. -/
theorem keyFilter_supressed_released (bindings : List (KeyPattern × Action))
    (inh rep : Bool) (tok : Nat) (st : FilterState) (ev : KeyEvent)
    (h : ev.state = KeyState.Released) :
    (keyFilter bindings inh rep tok st ev).1.supressed =
      ⟨st.supressed.keys.filter (fun e => !(e.1 == ev.rawCode))⟩ := by
  unfold keyFilter keyFilterMain
  split
  · split
    · rw [if_pos h]
      rfl
    · exact keyFilterTail_supressed_released bindings inh _ _ st.supressed ev h
  · exact keyFilterTail_supressed_released bindings inh _ _ st.supressed ev h

/-- The full filter on a pressed event: the set is unchanged or gains one
entry for the event's raw keycode. -/
theorem keyFilter_supressed_pressed (bindings : List (KeyPattern × Action))
    (inh rep : Bool) (tok : Nat) (st : FilterState) (ev : KeyEvent)
    (h : ev.state = KeyState.Pressed) :
    (keyFilter bindings inh rep tok st ev).1.supressed = st.supressed ∨
    ∃ t, (keyFilter bindings inh rep tok st ev).1.supressed =
      st.supressed.add ev.rawCode t := by
  unfold keyFilter keyFilterMain
  split
  · split
    · rw [if_neg (by rw [h]; exact fun hc => KeyState.noConfusion hc)]
      exact Or.inr ⟨_, rfl⟩
    · rcases keyFilterTail_supressed_pressed bindings inh _ _ st.supressed ev h with h1 | h1
      · exact Or.inl h1
      · exact Or.inr ⟨none, h1⟩
  · rcases keyFilterTail_supressed_pressed bindings inh _ _ st.supressed ev h with h1 | h1
    · exact Or.inl h1
    · exact Or.inr ⟨none, h1⟩

/-- One well-phased filter step preserves the suppressed-key invariant. -/
theorem suppInv_filterStep (d : Nat → Bool) (st : FilterState) (i : FilterInput)
    (hinv : SuppInv d st)
    (hok : (match i.event.state with
      | KeyState.Pressed => !(d i.event.rawCode)
      | KeyState.Released => d i.event.rawCode) = true) :
    SuppInv (updateDown d i.event) (filterStep st i) := by
  obtain ⟨hnd, hmem⟩ := hinv
  cases hstate : i.event.state with
  | Released =>
    rw [hstate] at hok
    have hkeys := keyFilter_supressed_released i.bindings i.shortcutsInhibited
      i.needsKeyRepetition i.freshToken st i.event hstate
    constructor
    · unfold SuppDistinct
      rw [show (filterStep st i).supressed = _ from hkeys]
      exact hnd.sublist (List.Sublist.map Prod.fst (List.filter_sublist _))
    · intro e he
      rw [show (filterStep st i).supressed = _ from hkeys] at he
      obtain ⟨hin, hne⟩ := List.mem_filter.mp he
      have hne2 : e.1 ≠ i.event.rawCode := by
        intro he1
        simp [he1] at hne
      rw [updateDown, if_neg hne2]
      exact hmem e hin
  | Pressed =>
    rw [hstate] at hok
    have hup : d i.event.rawCode = false := by
      cases hd : d i.event.rawCode
      · rfl
      · rw [hd] at hok; exact absurd hok (by decide)
    have hdown : ∀ c, d c = true → updateDown d i.event c = true := by
      intro c hc
      unfold updateDown
      split
      · rw [hstate]; rfl
      · exact hc
    rcases keyFilter_supressed_pressed i.bindings i.shortcutsInhibited
        i.needsKeyRepetition i.freshToken st i.event hstate with hkeys | ⟨t, hkeys⟩
    · refine ⟨?_, ?_⟩
      · unfold SuppDistinct
        rw [show (filterStep st i).supressed = _ from hkeys]
        exact hnd
      · intro e he
        rw [show (filterStep st i).supressed = _ from hkeys] at he
        exact hdown e.1 (hmem e he)
    · have hnotin : i.event.rawCode ∉ st.supressed.keys.map Prod.fst := by
        intro hin
        obtain ⟨e, hein, hefst⟩ := List.mem_map.mp hin
        have := hmem e hein
        rw [hefst] at this
        rw [this] at hup
        exact Bool.noConfusion hup
      refine ⟨?_, ?_⟩
      · unfold SuppDistinct
        rw [show (filterStep st i).supressed = _ from hkeys]
        unfold SupressedKeys.add
        rw [List.map_append]
        rw [List.nodup_append]
        exact ⟨hnd, List.nodup_singleton _, by
          intro a ha hb
          simp only [List.map_cons, List.map_nil, List.mem_singleton] at hb
          rw [hb] at ha
          exact hnotin ha⟩
      · intro e he
        rw [show (filterStep st i).supressed = _ from hkeys] at he
        unfold SupressedKeys.add at he
        rcases List.mem_append.mp he with he | he
        · exact hdown e.1 (hmem e he)
        · simp only [List.mem_singleton] at he
          rw [he]
          unfold updateDown
          rw [if_pos rfl, hstate]
          rfl

/-- Any well-phased run preserves the invariant, hence distinctness. -/
theorem suppInv_runFilter (l : List FilterInput) (d : Nat → Bool) (st : FilterState)
    (hinv : SuppInv d st) (halt : alternatingFrom d l = true) :
    SuppDistinct (runFilter st l).supressed := by
  induction l generalizing d st with
  | nil => exact hinv.1
  | cons i rest ih =>
    rw [alternatingFrom, Bool.and_eq_true] at halt
    exact ih (updateDown d i.event) (filterStep st i)
      (suppInv_filterStep d st i hinv halt.1) halt.2

/-- C4 fails on the code as stated: two intercepted key-downs of the same
raw keycode (here, two `XF86Switch_VT_1` presses, as two keyboards on one
seat can produce) drive the filter into a suppressed-key set with two
entries for the same raw keycode. -/
theorem supressed_keys_duplicate_counterexample :
    (runFilter emptyFilterState [vtPressInput, vtPressInput]).supressed =
      ⟨[(30, none), (30, none)]⟩ ∧
    ¬ SuppDistinct (runFilter emptyFilterState [vtPressInput, vtPressInput]).supressed := by
  decide

/-- C4 amended: along every filter-reachable sequence in which key events
alternate per raw keycode (a press only of an up key, a release only of a
down key), the suppressed-key set never contains two entries with the same
raw keycode. -/
theorem supressed_keys_distinct_of_alternating (overview : OverviewMode)
    (resize : ResizeMode) (l : List FilterInput)
    (h : alternatingFrom allKeysUp l = true) :
    SuppDistinct (runFilter ⟨overview, resize, ⟨[]⟩⟩ l).supressed :=
  suppInv_runFilter l allKeysUp _
    ⟨List.nodup_nil, fun e he => absurd he (List.not_mem_nil e)⟩ h

/-- Witness for C4's amended claim on a concrete alternating trace. -/
theorem supressed_keys_distinct_witness :
    alternatingFrom allKeysUp [vtPressInput] = true ∧
    SuppDistinct (runFilter ⟨OverviewMode.None, ResizeMode.None, ⟨[]⟩⟩
      [vtPressInput]).supressed :=
  ⟨by decide, supressed_keys_distinct_of_alternating OverviewMode.None ResizeMode.None
    [vtPressInput] (by decide)⟩

/-! ## C5: pointer stays on the active output -/

/-- The per-axis clamp `a.max(p).min(a + w)` lands in `[a, a + w]` when
`0 ≤ w`. -/
theorem clamp_axis_bounds (a w : Int) (p : Rat) (hw : 0 ≤ w) :
    (a : Rat) ≤ min (max (a : Rat) p) ((a + w : Int) : Rat) ∧
    min (max (a : Rat) p) ((a + w : Int) : Rat) ≤ ((a + w : Int) : Rat) := by
  refine ⟨le_min (le_max_left _ _) ?_, min_le_right _ _⟩
  push_cast
  have : (0 : Rat) ≤ (w : Rat) := by exact_mod_cast hw
  linarith

/-- C5: after any relative pointer motion the pointer location lies within
the active output's geometry with inclusive bounds; the active output is
the output containing the new position if one exists, else the previous
active output; and absolute-position events never change the active
output. -/
theorem pointer_motion_active_output_bounds (w : MotionWorld) (seat : SeatPointer)
    (delta : PointQ)
    (hsz : ∀ o ∈ w.outputs, 0 ≤ o.geometry.size.x ∧ 0 ≤ o.geometry.size.y)
    (hcur : 0 ≤ seat.activeOutput.geometry.size.x ∧ 0 ≤ seat.activeOutput.geometry.size.y) :
    (((processPointerMotion w seat delta).1.activeOutput.geometry.loc.x : Rat) ≤
        (processPointerMotion w seat delta).1.location.x ∧
      (processPointerMotion w seat delta).1.location.x ≤
        (((processPointerMotion w seat delta).1.activeOutput.geometry.loc.x
          + (processPointerMotion w seat delta).1.activeOutput.geometry.size.x : Int) : Rat)) ∧
    (((processPointerMotion w seat delta).1.activeOutput.geometry.loc.y : Rat) ≤
        (processPointerMotion w seat delta).1.location.y ∧
      (processPointerMotion w seat delta).1.location.y ≤
        (((processPointerMotion w seat delta).1.activeOutput.geometry.loc.y
          + (processPointerMotion w seat delta).1.activeOutput.geometry.size.y : Int) : Rat)) ∧
    (processPointerMotion w seat delta).1.activeOutput =
      outputForPosition w.outputs seat.activeOutput (seat.location.addQ delta) ∧
    ∀ tp : PointQ,
      (processPointerMotionAbsolute w seat tp).1.activeOutput = seat.activeOutput := by
  have hsz2 : 0 ≤ (motionOutput w seat delta).geometry.size.x ∧
      0 ≤ (motionOutput w seat delta).geometry.size.y := by
    unfold motionOutput outputForPosition
    cases hf : w.outputs.find? (fun q => q.geometry.containsQ (newPosition seat delta)) with
    | none => simpa using hcur
    | some o2 =>
      simp only [Option.getD_some]
      exact hsz o2 (List.mem_of_find?_eq_some hf)
  refine ⟨?_, ?_, rfl, fun tp => rfl⟩
  · exact clamp_axis_bounds (motionOutput w seat delta).geometry.loc.x
      (motionOutput w seat delta).geometry.size.x (newPosition seat delta).x hsz2.1
  · exact clamp_axis_bounds (motionOutput w seat delta).geometry.loc.y
      (motionOutput w seat delta).geometry.size.y (newPosition seat delta).y hsz2.2

/-- Evaluation of the S3 crossing: the motion from (1900, 500) by (40, 0)
lands on output B. -/
theorem motionOutput_worldAB : motionOutput worldAB seatA deltaAB = outB := by
  have h1 : newPosition seatA deltaAB = ⟨1940, 500⟩ := by
    unfold newPosition seatA deltaAB PointQ.addQ
    norm_num
  have h2 : outA.geometry.containsQ (⟨1940, 500⟩ : PointQ) = false := by
    norm_num [RectI.containsQ, outA]
  have h3 : outB.geometry.containsQ (⟨1940, 500⟩ : PointQ) = true := by
    norm_num [RectI.containsQ, outB]
  unfold motionOutput outputForPosition
  rw [h1, show worldAB.outputs = [outA, outB] from rfl]
  rw [List.find?_cons_of_neg _ (by simp [h2]), List.find?_cons_of_pos _ (by simp [h3])]
  rfl

/-- Witness for C5 in the concrete two-output world of scenario S3. -/
theorem pointer_motion_active_output_bounds_witness :
    (processPointerMotion worldAB seatA deltaAB).1.activeOutput = outB ∧
    ((processPointerMotion worldAB seatA deltaAB).1.activeOutput.geometry.loc.x : Rat) ≤
      (processPointerMotion worldAB seatA deltaAB).1.location.x := by
  have h := pointer_motion_active_output_bounds worldAB seatA deltaAB
    (by decide) (by decide)
  exact ⟨motionOutput_worldAB, h.1.1⟩

/-! ## C7: relative motion strictly precedes motion -/

/-- C7: within a single relative pointer-motion event, `relative_motion` is
dispatched immediately before `motion`: the trace ends with the two of
them, adjacent, and neither occurs anywhere earlier. -/
theorem relative_motion_before_motion (w : MotionWorld) (seat : SeatPointer)
    (delta : PointQ) :
    ∃ pre : List TraceEvent,
      (processPointerMotion w seat delta).2 =
        pre ++ [TraceEvent.relativeMotion, TraceEvent.motion] ∧
      TraceEvent.relativeMotion ∉ pre ∧ TraceEvent.motion ∉ pre := by
  refine ⟨motionCrossTrace w seat delta ++ motionInfoTrace w seat delta, ?_, ?_, ?_⟩
  · unfold processPointerMotion
    rw [List.append_assoc]
  · unfold motionCrossTrace motionInfoTrace
    split <;> split <;> simp
  · unfold motionCrossTrace motionInfoTrace
    split <;> split <;> simp

/-! ## C6: cursor leave before enter before active-output change -/

/-- If no element of `a` satisfies `q` and no element of `b` satisfies `p`,
then in `a ++ b` every `p`-event precedes every `q`-event. -/
theorem emittedBefore_append (p q : TraceEvent → Bool) (a b : List TraceEvent)
    (ha : ∀ x ∈ a, q x = false) (hb : ∀ x ∈ b, p x = false) :
    emittedBefore p q (a ++ b) := by
  intro i j hp hq
  have hlen : (a ++ b).length = a.length + b.length := List.length_append a b
  have hilen : (i : Nat) < a.length := by
    by_contra hge
    push_neg at hge
    have hib : (i : Nat) - a.length < b.length := by
      have hi := i.isLt
      omega
    rw [List.get_eq_getElem, List.getElem_append_right hge] at hp
    rw [hb _ (List.getElem_mem hib)] at hp
    exact Bool.noConfusion hp
  have hjlen : a.length ≤ (j : Nat) := by
    by_contra hlt
    push_neg at hlt
    rw [List.get_eq_getElem, List.getElem_append_left hlt] at hq
    rw [ha _ (List.getElem_mem hlt)] at hq
    exact Bool.noConfusion hq
  omega

/-- C6: when a relative motion crosses outputs, every screencopy session of
the former output receives exactly one `cursor_leave`, all `cursor_leave`s
precede every `cursor_enter`, and both precede the active-output change. -/
theorem cursor_leave_enter_ordering (w : MotionWorld) (seat : SeatPointer)
    (delta : PointQ)
    (hcross : (processPointerMotion w seat delta).1.activeOutput ≠ seat.activeOutput)
    (hnd : (w.sessionsFor seat.activeOutput.id).Nodup) :
    (∀ s ∈ w.sessionsFor seat.activeOutput.id,
      ((processPointerMotion w seat delta).2.count (TraceEvent.cursorLeave s)) = 1) ∧
    emittedBefore isLeave isEnter (processPointerMotion w seat delta).2 ∧
    emittedBefore (fun e => isLeave e || isEnter e) isSetActiveOutput
      (processPointerMotion w seat delta).2 := by
  have hco : motionOutput w seat delta ≠ seat.activeOutput := hcross
  have hct : motionCrossTrace w seat delta =
      (w.sessionsFor seat.activeOutput.id).map TraceEvent.cursorLeave
        ++ (w.sessionsFor (motionOutput w seat delta).id).map TraceEvent.cursorEnter
        ++ [TraceEvent.setActiveOutput (motionOutput w seat delta).id] := by
    unfold motionCrossTrace
    rw [if_pos hco]
  have htr : (processPointerMotion w seat delta).2 =
      (w.sessionsFor seat.activeOutput.id).map TraceEvent.cursorLeave
        ++ ((w.sessionsFor (motionOutput w seat delta).id).map TraceEvent.cursorEnter
          ++ ([TraceEvent.setActiveOutput (motionOutput w seat delta).id]
            ++ (motionInfoTrace w seat delta
              ++ [TraceEvent.relativeMotion, TraceEvent.motion]))) := by
    show motionCrossTrace w seat delta ++ motionInfoTrace w seat delta
        ++ [TraceEvent.relativeMotion, TraceEvent.motion] = _
    rw [hct]
    simp only [List.append_assoc]
  refine ⟨?_, ?_, ?_⟩
  · intro s hs
    rw [htr]
    rw [List.count_append, List.count_append, List.count_append, List.count_append]
    have h1 : ((w.sessionsFor seat.activeOutput.id).map TraceEvent.cursorLeave).count
        (TraceEvent.cursorLeave s) = 1 := by
      rw [List.count_map_of_injective _ TraceEvent.cursorLeave
        (fun a b hab => TraceEvent.cursorLeave.injEq a b ▸ hab) s]
      exact List.count_eq_one_of_mem hnd hs
    have h2 : ∀ (l : List Nat), ((l.map TraceEvent.cursorEnter).count
        (TraceEvent.cursorLeave s)) = 0 := by
      intro l
      rw [List.count_eq_zero]
      intro hmem
      obtain ⟨x, -, hx⟩ := List.mem_map.mp hmem
      exact TraceEvent.noConfusion hx
    have h3 : ([TraceEvent.setActiveOutput (motionOutput w seat delta).id].count
        (TraceEvent.cursorLeave s)) = 0 := by
      rw [List.count_eq_zero]
      intro hmem
      rw [List.mem_singleton] at hmem
      exact TraceEvent.noConfusion hmem
    have h4 : ((motionInfoTrace w seat delta).count (TraceEvent.cursorLeave s)) = 0 := by
      rw [List.count_eq_zero]
      unfold motionInfoTrace
      split
      · intro hmem
        obtain ⟨x, -, hx⟩ := List.mem_map.mp hmem
        exact TraceEvent.noConfusion hx
      · exact List.not_mem_nil _
    have h5 : ([TraceEvent.relativeMotion, TraceEvent.motion].count
        (TraceEvent.cursorLeave s)) = 0 := by
      rw [List.count_eq_zero]
      intro hmem
      rcases List.mem_cons.mp hmem with hx | hx
      · exact TraceEvent.noConfusion hx
      · rw [List.mem_singleton] at hx
        exact TraceEvent.noConfusion hx
    rw [h1, h2, h3, h4, h5]
  · rw [htr]
    apply emittedBefore_append
    · intro x hx
      obtain ⟨a, -, ha⟩ := List.mem_map.mp hx
      rw [← ha]
      rfl
    · intro x hx
      rcases List.mem_append.mp hx with hx | hx
      · obtain ⟨a, -, ha⟩ := List.mem_map.mp hx
        rw [← ha]
        rfl
      · rcases List.mem_append.mp hx with hx | hx
        · rw [List.mem_singleton] at hx
          rw [hx]
          rfl
        · rcases List.mem_append.mp hx with hx | hx
          · unfold motionInfoTrace at hx
            revert hx
            split
            · intro hx
              obtain ⟨a, -, ha⟩ := List.mem_map.mp hx
              rw [← ha]
              rfl
            · intro hx
              exact absurd hx (List.not_mem_nil x)
          · rcases List.mem_cons.mp hx with hx | hx
            · rw [hx]; rfl
            · rw [List.mem_singleton] at hx
              rw [hx]; rfl
  · rw [htr, ← List.append_assoc]
    apply emittedBefore_append
    · intro x hx
      rcases List.mem_append.mp hx with hx | hx <;>
        · obtain ⟨a, -, ha⟩ := List.mem_map.mp hx
          rw [← ha]
          rfl
    · intro x hx
      rcases List.mem_append.mp hx with hx | hx
      · rw [List.mem_singleton] at hx
        rw [hx]
        rfl
      · rcases List.mem_append.mp hx with hx | hx
        · unfold motionInfoTrace at hx
          revert hx
          split
          · intro hx
            obtain ⟨a, -, ha⟩ := List.mem_map.mp hx
            rw [← ha]
            rfl
          · intro hx
            exact absurd hx (List.not_mem_nil x)
        · rcases List.mem_cons.mp hx with hx | hx
          · rw [hx]; rfl
          · rw [List.mem_singleton] at hx
            rw [hx]; rfl

/-- Witness for C6: the S3 crossing from output A to output B. -/
theorem cursor_leave_enter_ordering_witness :
    (∀ s ∈ worldAB.sessionsFor seatA.activeOutput.id,
      ((processPointerMotion worldAB seatA deltaAB).2.count (TraceEvent.cursorLeave s)) = 1) ∧
    emittedBefore isLeave isEnter (processPointerMotion worldAB seatA deltaAB).2 ∧
    emittedBefore (fun e => isLeave e || isEnter e) isSetActiveOutput
      (processPointerMotion worldAB seatA deltaAB).2 :=
  cursor_leave_enter_ordering worldAB seatA deltaAB
    (by show motionOutput worldAB seatA deltaAB ≠ seatA.activeOutput
        rw [motionOutput_worldAB]
        decide)
    (by decide)

/-! ## C3: keyboard refocus vs surface_under -/

/-- C3 fails on the code: a top layer with a surface under the position but
no keyboard-focus capability makes the refocus select nothing, while the
claim's focus-restricted `surface_under` precedence falls through to the
workspace element. -/
theorem button_refocus_claim_counterexample :
    buttonRefocusTarget cePos cePos ceLayers ceWs ≠ claimRefocusSpec cePos ceLayers ceWs := by
  decide

/-- If every reported layer passes the refocus check, an `orElse` of two
lookups that produced a layer also passes it. -/
theorem refocus_check_of_orElse (layers : LayerMapM) (relative : PointQ)
    (hlayer : ∀ wl p layer, layers.layerUnder wl p = some layer →
      refocusLayerCheck relative layer = true)
    (w1 w2 : WlrLayer) (p1 p2 : PointQ) (layer : LayerSurfaceM)
    (h : (layers.layerUnder w1 p1).orElse (fun _ => layers.layerUnder w2 p2) = some layer) :
    refocusLayerCheck relative layer = true := by
  cases hov : layers.layerUnder w1 p1 with
  | some l2 =>
    rw [hov] at h
    exact hlayer w1 p1 layer (hov.trans h)
  | none =>
    rw [hov] at h
    exact hlayer w2 p2 layer h

/-- C3 amended: the keyboard-refocus hit test agrees with the
focus-restricted `surface_under` target under three provisos the code
makes necessary: the global and output-relative positions coincide (the
bottom/background lookups use the global position), every layer reported
under a position is keyboard-focus-capable and reports a surface (a
reported layer failing the check makes the refocus select nothing instead
of falling through), and no override-redirect window's input region
contains the position (the refocus never considers them). -/
theorem button_refocus_refines_surface_under (pos relative : PointQ)
    (outputGeoLoc : PointI) (layers : LayerMapM) (ors : List X11SurfaceM)
    (ws : WorkspaceHit)
    (hpos : pos = relative)
    (hlayer : ∀ wl p layer, layers.layerUnder wl p = some layer →
      refocusLayerCheck relative layer = true)
    (hor : ∀ o ∈ ors, o.inInputRegion (pos.subI o.loc) = false) :
    buttonRefocusTarget pos relative layers ws =
      (surface_under pos relative outputGeoLoc layers ors ws).map Prod.fst := by
  subst hpos
  have horNone : orWindowUnder pos ors = none := by
    unfold orWindowUnder
    apply List.find?_eq_none.mpr
    intro o ho
    simp [hor o ho]
  have hsurf : ∀ layer : LayerSurfaceM, refocusLayerCheck pos layer = true →
      layer.surfaceUnderAt (pos.subI layer.loc) = true := by
    intro layer hchk
    unfold refocusLayerCheck at hchk
    exact (Bool.and_eq_true _ _).mp hchk |>.2
  unfold buttonRefocusTarget surface_under
  cases hfs : ws.fullscreen with
  | some window =>
    cases hov : layers.layerUnder WlrLayer.Overlay pos with
    | some layer =>
      have hchk := hlayer _ _ _ hov
      simp [hchk, layerSurfaceHit, hsurf layer hchk]
    | none =>
      simp [horNone]
  | none =>
    cases hot : (layers.layerUnder WlrLayer.Overlay pos).orElse
        (fun _ => layers.layerUnder WlrLayer.Top pos) with
    | some layer =>
      have hchk := refocus_check_of_orElse layers pos hlayer _ _ _ _ layer hot
      simp [hchk, layerSurfaceHit, hsurf layer hchk]
    | none =>
      cases hmx : ws.maximized with
      | some surface => simp [horNone]
      | none =>
        cases hel : ws.elementUnder pos with
        | some tl => simp [horNone]
        | none =>
          cases hbb : (layers.layerUnder WlrLayer.Bottom pos).orElse
              (fun _ => layers.layerUnder WlrLayer.Background pos) with
          | some layer =>
            have hchk := refocus_check_of_orElse layers pos hlayer _ _ _ _ layer hbb
            simp [horNone, hchk, layerSurfaceHit, hsurf layer hchk]
          | none =>
            simp [horNone]

/-- Witness for C3's amended claim in the empty scene. -/
theorem button_refocus_refines_surface_under_witness :
    buttonRefocusTarget originQ originQ emptyLayers emptyWsHit =
      (surface_under originQ originQ originI emptyLayers [] emptyWsHit).map Prod.fst :=
  button_refocus_refines_surface_under originQ originQ originI emptyLayers [] emptyWsHit
    rfl
    (fun _wl _p _layer h => Option.noConfusion h)
    (fun o ho => absurd ho (List.not_mem_nil o))

/-! ## C10: surface_under is total in the fullscreen case -/

/-- C10: when the workspace has a fullscreen window, `surface_under`
returns `Some`: the overlay-layer hit if any, else the override-redirect
window whose input region contains the global position, else the
fullscreen window itself at the output's origin. -/
theorem surface_under_fullscreen_total (global relative : PointQ)
    (outputGeoLoc : PointI) (layers : LayerMapM) (ors : List X11SurfaceM)
    (ws : WorkspaceHit) (w : Nat) (h : ws.fullscreen = some w) :
    surface_under global relative outputGeoLoc layers ors ws =
      some ((((layers.layerUnder WlrLayer.Overlay relative).bind
            (fun layer => layerSurfaceHit relative outputGeoLoc layer)).orElse
          (fun _ => (orWindowUnder global ors).map
            (fun o => (PointerFocusTargetM.x11OverrideRedirect o.id, o.loc)))).getD
        (PointerFocusTargetM.window w, outputGeoLoc)) := by
  unfold surface_under
  rw [h]
  cases hov : layers.layerUnder WlrLayer.Overlay relative with
  | some layer =>
    cases hhit : layerSurfaceHit relative outputGeoLoc layer with
    | some hit => simp [hhit, Option.orElse]
    | none =>
      cases horw : orWindowUnder global ors with
      | some o => simp [hhit, horw, Option.orElse]
      | none => simp [hhit, horw, Option.orElse]
  | none =>
    cases horw : orWindowUnder global ors with
    | some o => simp [horw, Option.orElse]
    | none => simp [horw, Option.orElse]

/-- Witness for C10: the fullscreen window is hit in an otherwise empty
scene. -/
theorem surface_under_fullscreen_total_witness :
    surface_under originQ originQ originI emptyLayers [] fsWsHit =
      some ((((emptyLayers.layerUnder WlrLayer.Overlay originQ).bind
            (fun layer => layerSurfaceHit originQ originI layer)).orElse
          (fun _ => (orWindowUnder originQ []).map
            (fun o => (PointerFocusTargetM.x11OverrideRedirect o.id, o.loc)))).getD
        (PointerFocusTargetM.window 42, originI)) :=
  surface_under_fullscreen_total originQ originQ originI emptyLayers [] fsWsHit 42 rfl

end Cosmic
